import Mathlib

/-!
Verification of the caption grouping and timing engine of
`src/CaptionedVideo/index.tsx`.

The repository renders a captioned video.  The algorithmic core is:

* the caption grouper `createTikTokStyleCaptions` (imported by the source
  from the `@remotion/captions` package, hence modelled here from the
  specification, which describes its contract in §4.1);
* the timeline mapper: the `pages.map` loop in the `CaptionedVideo`
  component (lines 169–191 of the source), embedded here as `mapToFrames`;
* the composition metadata calculation `calculateCaptionedVideoMetadata`
  (lines 31–41);
* the subtitle-fetching fallback behaviour of `fetchSubtitles`
  (lines 70–97), embedded as a pure function of the fetch outcome.

JavaScript numbers are modelled as rationals (`ℚ`); the arithmetic the
source performs on caption times and frame counts is exact on the inputs
of interest, so `ℚ` is a faithful model of the observable values.
-/

namespace CaptionedVideo

/-- A single timestamped caption token (the `Caption` type of
`@remotion/captions` as far as the core reads it: `startMs` and `text`). -/
structure Caption where
  startMs : ℚ
  text : String
deriving DecidableEq

/-- A page: a contiguous group of captions displayed together.
`startMs` is the start time of its first constituent caption. -/
structure Page where
  startMs : ℚ
  tokens : List Caption
deriving DecidableEq

/-- A page's on-screen lifetime in frame units, as passed to `Sequence`
(`from={subtitleStartFrame}` and `durationInFrames={durationInFrames}`). -/
structure FrameInterval where
  startFrame : ℚ
  durationFrames : ℚ
deriving DecidableEq

/-- Source line 55: `const SWITCH_CAPTIONS_EVERY_MS = 1200;`. -/
def SWITCH_CAPTIONS_EVERY_MS : ℚ := 1200

/-- Modelled from the spec: `createTikTokStyleCaptions` is imported from the
`@remotion/captions` package and its implementation is not part of this
repository.  Spec §4.1: walk the caption sequence once; start a new page at
the first caption; append each subsequent caption to the current page when
the gap between its `startMs` and the current page's `startMs` is strictly
below the threshold, otherwise close the page and open a new one at that
caption.  Each page is thus a maximal run of captions whose start times fall
within the threshold of the run's first caption, which is exactly the
repeated span below. -/
def createTikTokStyleCaptions (thresholdMs : ℚ) : List Caption → List Page
  | [] => []
  | c :: rest =>
    { startMs := c.startMs,
      tokens := c :: rest.takeWhile (fun x => decide (x.startMs - c.startMs < thresholdMs)) } ::
      createTikTokStyleCaptions thresholdMs
        (rest.dropWhile (fun x => decide (x.startMs - c.startMs < thresholdMs)))
termination_by cs => cs.length
decreasing_by
  exact Nat.lt_succ_of_le (List.Sublist.length_le (List.dropWhile_sublist _))

/-- Source lines 171–176: the interval computed for one page, before the
drop test.  `next` is `pages[index + 1] ?? null`; when it is `none` the
source takes `Math.min(Infinity, subtitleStartFrame + SWITCH_CAPTIONS_EVERY_MS)`,
which equals `subtitleStartFrame + SWITCH_CAPTIONS_EVERY_MS`. -/
def rawInterval (fps maxDurationMs : ℚ) (page : Page) (next : Option Page) : FrameInterval :=
  let subtitleStartFrame := page.startMs / 1000 * fps
  let subtitleEndFrame :=
    match next with
    | some nextPage => min (nextPage.startMs / 1000 * fps) (subtitleStartFrame + maxDurationMs)
    | none => subtitleStartFrame + maxDurationMs
  { startFrame := subtitleStartFrame,
    durationFrames := subtitleEndFrame - subtitleStartFrame }

/-- Source lines 176–190: `if (durationInFrames <= 0) return null;` else
render the `Sequence` for this page's interval. -/
def pageInterval (fps maxDurationMs : ℚ) (page : Page) (next : Option Page) :
    Option FrameInterval :=
  if (rawInterval fps maxDurationMs page next).durationFrames ≤ 0 then none
  else some (rawInterval fps maxDurationMs page next)

/-- Source lines 169–191: `pages.map((page, index) => ...)` with the
`durationInFrames <= 0` drops removed from the rendered output.  For the
page at position `index`, `pages[index + 1] ?? null` is the head of the
remaining list. -/
def mapToFrames (fps maxDurationMs : ℚ) : List Page → List FrameInterval
  | [] => []
  | page :: rest =>
    match pageInterval fps maxDurationMs page rest.head? with
    | none => mapToFrames fps maxDurationMs rest
    | some iv => iv :: mapToFrames fps maxDurationMs rest

/-- Each input page paired with its successor (`pages[index + 1] ?? null`). -/
def pairWithNext : List Page → List (Page × Option Page)
  | [] => []
  | page :: rest => (page, rest.head?) :: pairWithNext rest

/-- The timeline mapper transcribed from the specification's own words
(§4.2 / claim C1): indexwise over the input,
`startFrame_i = pages[i].startMs / 1000 * fps`,
`candidateEndFrame_i = min(pages[i+1] exists ? pages[i+1].startMs/1000*fps : +infinity,
startFrame_i + maxDurationMs)` (the `+infinity` arm of the `min` is elided
when there is no next page), and the interval is emitted exactly when its
duration is strictly positive. -/
def mapToFramesSpec (fps maxDurationMs : ℚ) (pages : List Page) : List FrameInterval :=
  (List.range pages.length).filterMap fun i =>
    match pages[i]? with
    | none => none
    | some p =>
      let startFrame := p.startMs / 1000 * fps
      let candidateEndFrame :=
        match pages[i + 1]? with
        | some np => min (np.startMs / 1000 * fps) (startFrame + maxDurationMs)
        | none => startFrame + maxDurationMs
      if 0 < candidateEndFrame - startFrame then
        some { startFrame := startFrame, durationFrames := candidateEndFrame - startFrame }
      else none

/-- The result of `calculateCaptionedVideoMetadata` (source lines 31–41). -/
structure CompositionMetadata where
  fps : ℚ
  durationInFrames : ℤ
deriving DecidableEq

/-- Source lines 31–41: `const fps = 30;` and
`durationInFrames: Math.floor(metadata.durationInSeconds * fps)`.  The only
field of the probed video metadata the function reads is
`durationInSeconds`, which is the argument here. -/
def calculateCaptionedVideoMetadata (durationInSeconds : ℚ) : CompositionMetadata :=
  let fps : ℚ := 30
  { fps := fps, durationInFrames := ⌊durationInSeconds * fps⌋ }

/-- The possible outcomes of the asynchronous work inside `fetchSubtitles`
(source lines 70–97), as observed by the `subtitles` state. -/
inductive FetchOutcome where
  /-- `getFileExists(subtitlesFile)` returned `false`. -/
  | fileMissing : FetchOutcome
  /-- `fetch` resolved but `res.ok` was `false` (the given HTTP status). -/
  | httpError : Nat → FetchOutcome
  /-- `loadFont`, `fetch` or `res.json()` threw. -/
  | fetchThrew : FetchOutcome
  /-- The subtitle file was fetched and decoded to this caption list. -/
  | success : List Caption → FetchOutcome
deriving DecidableEq

/-- The `try` block of `fetchSubtitles`: the missing-file branch sets the
empty list and returns early; a non-ok response throws
`Failed to fetch subtitles: ...`; any other throw propagates; on success the
decoded data is the result. -/
def fetchSubtitlesTry : FetchOutcome → Except String (List Caption)
  | .fileMissing => .ok []
  | .httpError status => .error ("Failed to fetch subtitles: " ++ toString status)
  | .fetchThrew => .error "Error loading subtitles"
  | .success data => .ok data

/-- The value `setSubtitles` stores for a given outcome: the `catch` block
(source lines 92–96) degrades every thrown error to the empty list. -/
def fetchSubtitlesState (o : FetchOutcome) : List Caption :=
  match fetchSubtitlesTry o with
  | .ok data => data
  | .error _ => []

/-! Sanity checks on the worked scenario of spec §8: captions at 0, 100 and
1300 ms with threshold 1200 ms group into two pages; the mapper at 30 fps
yields 39 frames for the first page and 1200 for the (capped) last one. -/

example :
    createTikTokStyleCaptions 1200
      [⟨0, "a"⟩, ⟨100, "b"⟩, ⟨1300, "c"⟩] =
      [⟨0, [⟨0, "a"⟩, ⟨100, "b"⟩]⟩, ⟨1300, [⟨1300, "c"⟩]⟩] := by
  rw [createTikTokStyleCaptions]
  norm_num [List.takeWhile, List.dropWhile]
  rw [createTikTokStyleCaptions]
  norm_num [List.takeWhile, List.dropWhile]
  rw [createTikTokStyleCaptions]

example :
    mapToFrames 30 1200 [⟨0, [⟨0, "a"⟩, ⟨100, "b"⟩]⟩, ⟨1300, [⟨1300, "c"⟩]⟩] =
      [⟨0, 39⟩, ⟨39, 1200⟩] := by
  norm_num [mapToFrames, pageInterval, rawInterval, min_def]

/-! ### Helper lemmas -/

/-- The head of `dropWhile p l`, when present, fails the predicate. -/
theorem head?_dropWhile_false {α : Type} (p : α → Bool) (l : List α) (x : α)
    (h : (l.dropWhile p).head? = some x) : p x = false := by
  have hmatch := List.head?_dropWhile_not p l
  rw [h] at hmatch
  exact hmatch

/-- The head page of the grouper's output starts at the head caption. -/
theorem createTikTokStyleCaptions_head (thresholdMs : ℚ) (cs : List Caption) (pg : Page)
    (h : (createTikTokStyleCaptions thresholdMs cs).head? = some pg) :
    ∃ c, cs.head? = some c ∧ pg.startMs = c.startMs := by
  cases cs with
  | nil =>
    rw [createTikTokStyleCaptions] at h
    simp at h
  | cons c rest =>
    rw [createTikTokStyleCaptions] at h
    simp only [List.head?_cons, Option.some.injEq] at h
    exact ⟨c, rfl, by rw [← h]⟩

/-! ### Claim theorems -/

/-- Claim C3: the grouper appends a caption to the current page exactly when
the gap between the caption's `startMs` and the current page's `startMs` is
strictly below the threshold, so every page is a maximal run anchored at its
first caption: every page's tokens start with a caption at the page's
`startMs`, every later token of the page is within the threshold of the
page's start, and the first caption of each following page is at least the
threshold away from the previous page's start. -/
theorem createTikTokStyleCaptions_grouping (thresholdMs : ℚ) (cs : List Caption) :
    (∀ pg ∈ createTikTokStyleCaptions thresholdMs cs,
        ∃ c rest2, pg.tokens = c :: rest2 ∧ c.startMs = pg.startMs ∧
          ∀ x ∈ rest2, x.startMs - pg.startMs < thresholdMs) ∧
    List.Chain' (fun pg qg => thresholdMs ≤ qg.startMs - pg.startMs)
      (createTikTokStyleCaptions thresholdMs cs) := by
  induction cs using createTikTokStyleCaptions.induct thresholdMs with
  | case1 => simp [createTikTokStyleCaptions]
  | case2 c rest ih =>
    rw [createTikTokStyleCaptions]
    constructor
    · intro pg hpg
      rcases List.mem_cons.mp hpg with hpg | hpg
      · subst hpg
        refine ⟨c, _, rfl, rfl, ?_⟩
        intro x hx
        have := List.mem_takeWhile_imp hx
        exact of_decide_eq_true this
      · exact ih.1 pg hpg
    · rw [List.chain'_cons']
      refine ⟨?_, ih.2⟩
      intro qg hqg
      rw [Option.mem_def] at hqg
      obtain ⟨c', hc', hstart⟩ := createTikTokStyleCaptions_head thresholdMs _ qg hqg
      have hfail := head?_dropWhile_false _ _ _ hc'
      have : ¬ (c'.startMs - c.startMs < thresholdMs) := of_decide_eq_false hfail
      rw [hstart]
      exact le_of_not_lt this

/-- Claim C3 witness: the grouping characterization at the worked scenario
of spec §8 (captions at 0, 100 and 1300 ms, threshold 1200 ms). -/
theorem createTikTokStyleCaptions_grouping_witness :
    (∀ pg ∈ createTikTokStyleCaptions 1200 [⟨0, "a"⟩, ⟨100, "b"⟩, ⟨1300, "c"⟩],
        ∃ c rest2, pg.tokens = c :: rest2 ∧ c.startMs = pg.startMs ∧
          ∀ x ∈ rest2, x.startMs - pg.startMs < 1200) ∧
    List.Chain' (fun pg qg => (1200 : ℚ) ≤ qg.startMs - pg.startMs)
      (createTikTokStyleCaptions 1200 [⟨0, "a"⟩, ⟨100, "b"⟩, ⟨1300, "c"⟩]) :=
  createTikTokStyleCaptions_grouping 1200 [⟨0, "a"⟩, ⟨100, "b"⟩, ⟨1300, "c"⟩]

/-- Claim C4: grouping then concatenating all pages' token sequences in page
order reproduces the original caption sequence (lossless, order-preserving
partition). -/
theorem createTikTokStyleCaptions_roundTrip (thresholdMs : ℚ) (cs : List Caption) :
    ((createTikTokStyleCaptions thresholdMs cs).map Page.tokens).flatten = cs := by
  induction cs using createTikTokStyleCaptions.induct thresholdMs with
  | case1 => simp [createTikTokStyleCaptions]
  | case2 c rest ih =>
    rw [createTikTokStyleCaptions]
    simp only [List.map_cons, List.flatten_cons, ih]
    simp [List.takeWhile_append_dropWhile]

/-- Claim C4 witness: the round-trip law at the worked scenario of spec §8. -/
theorem createTikTokStyleCaptions_roundTrip_witness :
    ((createTikTokStyleCaptions 1200 [⟨0, "a"⟩, ⟨100, "b"⟩, ⟨1300, "c"⟩]).map
        Page.tokens).flatten = [⟨0, "a"⟩, ⟨100, "b"⟩, ⟨1300, "c"⟩] :=
  createTikTokStyleCaptions_roundTrip 1200 [⟨0, "a"⟩, ⟨100, "b"⟩, ⟨1300, "c"⟩]

/-- Claim C5: no frame interval emitted by the timeline mapper has
`durationFrames ≤ 0`. -/
theorem mapToFrames_duration_pos (fps maxDurationMs : ℚ) (pages : List Page) :
    ∀ iv ∈ mapToFrames fps maxDurationMs pages, 0 < iv.durationFrames := by
  induction pages with
  | nil => intro iv h; simp [mapToFrames] at h
  | cons page rest ih =>
    intro iv h
    rw [mapToFrames] at h
    revert h
    cases hpi : pageInterval fps maxDurationMs page rest.head? with
    | none => exact fun h => ih iv h
    | some iv0 =>
      intro h
      rcases List.mem_cons.mp h with h1 | h1
      · subst h1
        unfold pageInterval at hpi
        split at hpi
        · exact absurd hpi (by simp)
        · rename_i hle
          cases hpi
          exact lt_of_not_le hle
      · exact ih iv h1

/-- Claim C5 witness: the single page at 0 ms yields the interval
`⟨0, 1200⟩`, whose duration is positive. -/
theorem mapToFrames_duration_pos_witness :
    (⟨0, 1200⟩ : FrameInterval) ∈ mapToFrames 30 1200 [⟨0, []⟩] ∧
    (0 : ℚ) < (⟨0, 1200⟩ : FrameInterval).durationFrames := by
  have hmem : (⟨0, 1200⟩ : FrameInterval) ∈ mapToFrames 30 1200 [⟨0, []⟩] := by
    norm_num [mapToFrames, pageInterval, rawInterval]
  exact ⟨hmem, mapToFrames_duration_pos 30 1200 [⟨0, []⟩] _ hmem⟩

/-- Claim C9: whenever the caption source is absent or its fetch or decode
fails (missing subtitle file, non-ok HTTP response, or any thrown error),
`fetchSubtitles` stores the empty caption list, so the grouping/mapping core
always receives a valid (possibly empty) input. -/
theorem fetchSubtitles_degrades_to_empty (o : FetchOutcome)
    (h : ∀ data, o ≠ FetchOutcome.success data) :
    fetchSubtitlesState o = [] := by
  cases o with
  | fileMissing => rfl
  | httpError status => rfl
  | fetchThrew => rfl
  | success data => exact absurd rfl (h data)

/-- Claim C9 witness: a thrown fetch error yields the empty subtitle list. -/
theorem fetchSubtitles_degrades_to_empty_witness :
    (∀ data, FetchOutcome.fetchThrew ≠ FetchOutcome.success data) ∧
    fetchSubtitlesState FetchOutcome.fetchThrew = [] :=
  ⟨fun _ h => FetchOutcome.noConfusion h,
    fetchSubtitles_degrades_to_empty _ (fun _ h => FetchOutcome.noConfusion h)⟩

/-- Claim C10: the composition metadata fixes the frame rate at exactly
30 fps for every probed duration (hence regardless of the source video's
native rate), and sets the total duration to `⌊durationInSeconds * 30⌋`
frames. -/
theorem calculateCaptionedVideoMetadata_spec (durationInSeconds : ℚ) :
    (calculateCaptionedVideoMetadata durationInSeconds).fps = 30 ∧
    (calculateCaptionedVideoMetadata durationInSeconds).durationInFrames =
      ⌊durationInSeconds * 30⌋ :=
  ⟨rfl, rfl⟩

/-- Claim C10 witness: a 10.5-second video gets 30 fps and 315 frames. -/
theorem calculateCaptionedVideoMetadata_spec_witness :
    (calculateCaptionedVideoMetadata (21 / 2)).fps = 30 ∧
    (calculateCaptionedVideoMetadata (21 / 2)).durationInFrames = ⌊(21 / 2 : ℚ) * 30⌋ :=
  calculateCaptionedVideoMetadata_spec (21 / 2)

/-- Splitting off the first index of a `filterMap` over `List.range`. -/
theorem filterMap_range_succ {β : Type} (f : ℕ → Option β) (n : ℕ) :
    (List.range (n + 1)).filterMap f =
      (f 0).toList ++ (List.range n).filterMap (fun i => f (i + 1)) := by
  rw [List.range_succ_eq_map, List.filterMap_cons, List.filterMap_map]
  have hcomp : f ∘ Nat.succ = fun i => f (i + 1) := rfl
  rw [hcomp]
  cases h : f 0 <;> simp [h]

/-- The per-page emission of the source, written the way the specification
words it (`if 0 < duration then emit else nothing`), agrees with
`pageInterval` (`if duration ≤ 0 then nothing else emit`). -/
theorem pageInterval_spec_form (fps maxDurationMs : ℚ) (page : Page) (next : Option Page) :
    (let startFrame := page.startMs / 1000 * fps
     let candidateEndFrame :=
       match next with
       | some np => min (np.startMs / 1000 * fps) (startFrame + maxDurationMs)
       | none => startFrame + maxDurationMs
     if 0 < candidateEndFrame - startFrame then
       some { startFrame := startFrame, durationFrames := candidateEndFrame - startFrame }
     else (none : Option FrameInterval)) = pageInterval fps maxDurationMs page next := by
  cases next <;>
    · simp only [pageInterval, rawInterval]
      split_ifs <;> first | rfl | (exfalso; linarith)

/-- Unfolding `mapToFramesSpec` at a cons cell. -/
theorem mapToFramesSpec_cons (fps maxDurationMs : ℚ) (page : Page) (rest : List Page) :
    mapToFramesSpec fps maxDurationMs (page :: rest) =
      (pageInterval fps maxDurationMs page rest.head?).toList ++
        mapToFramesSpec fps maxDurationMs rest := by
  unfold mapToFramesSpec
  rw [List.length_cons, filterMap_range_succ]
  congr 1
  · simp only [List.getElem?_cons_zero, List.getElem?_cons_succ]
    rw [← List.head?_eq_getElem?, ← pageInterval_spec_form fps maxDurationMs page rest.head?]
  · congr 1
    funext i
    simp only [List.getElem?_cons_succ]

/-- Claim C1: the timeline mapper computes, for every page `i`,
`startFrame_i = pages[i].startMs / 1000 * fps` and
`candidateEndFrame_i = min(pages[i+1].startMs / 1000 * fps` if a next page
exists else `+infinity, startFrame_i + maxDurationMs)`, and emits
`{startFrame_i, candidateEndFrame_i - startFrame_i}` exactly when that
duration is strictly positive: the source loop `mapToFrames` coincides with
the index-wise specification `mapToFramesSpec` on every input. -/
theorem mapToFrames_eq_spec (fps maxDurationMs : ℚ) (pages : List Page) :
    mapToFrames fps maxDurationMs pages = mapToFramesSpec fps maxDurationMs pages := by
  induction pages with
  | nil => rfl
  | cons page rest ih =>
    rw [mapToFrames, mapToFramesSpec_cons, ← ih]
    cases hpi : pageInterval fps maxDurationMs page rest.head? <;> simp

/-- Claim C1 witness: the two renderings of the mapper agree on the worked
scenario of spec §8. -/
theorem mapToFrames_eq_spec_witness :
    mapToFrames 30 1200 [⟨0, [⟨0, "a"⟩, ⟨100, "b"⟩]⟩, ⟨1300, [⟨1300, "c"⟩]⟩] =
      mapToFramesSpec 30 1200 [⟨0, [⟨0, "a"⟩, ⟨100, "b"⟩]⟩, ⟨1300, [⟨1300, "c"⟩]⟩] :=
  mapToFrames_eq_spec 30 1200 [⟨0, [⟨0, "a"⟩, ⟨100, "b"⟩]⟩, ⟨1300, [⟨1300, "c"⟩]⟩]

/-- When the drop test lets an interval through, it is the computed raw
interval of that page. -/
theorem pageInterval_some_eq (fps maxDurationMs : ℚ) (page : Page) (next : Option Page)
    (iv : FrameInterval) (h : pageInterval fps maxDurationMs page next = some iv) :
    iv = rawInterval fps maxDurationMs page next := by
  unfold pageInterval at h
  split at h
  · exact absurd h (by simp)
  · injection h with h'
    exact h'.symm

/-- `pairWithNext` pairs every input page with its successor, one pair per
page. -/
theorem pairWithNext_length (pages : List Page) :
    (pairWithNext pages).length = pages.length := by
  induction pages with
  | nil => rfl
  | cons page rest ih => simp [pairWithNext, ih]

/-- Claim C6: the emitted frame intervals form a subsequence (in the
`List.Sublist` sense: same relative order, no duplication, no merging) of
the per-page candidate intervals taken in input page order, and each input
page yields at most one interval. -/
theorem mapToFrames_subsequence (fps maxDurationMs : ℚ) (pages : List Page) :
    List.Sublist (mapToFrames fps maxDurationMs pages)
      ((pairWithNext pages).map fun x => rawInterval fps maxDurationMs x.1 x.2) ∧
    (mapToFrames fps maxDurationMs pages).length ≤ pages.length := by
  have hsub : List.Sublist (mapToFrames fps maxDurationMs pages)
      ((pairWithNext pages).map fun x => rawInterval fps maxDurationMs x.1 x.2) := by
    induction pages with
    | nil => simp [mapToFrames, pairWithNext]
    | cons page rest ih =>
      rw [mapToFrames]
      simp only [pairWithNext, List.map_cons]
      cases hpi : pageInterval fps maxDurationMs page rest.head? with
      | none => exact List.Sublist.cons _ ih
      | some iv =>
        rw [pageInterval_some_eq fps maxDurationMs page rest.head? iv hpi]
        exact List.Sublist.cons₂ _ ih
  refine ⟨hsub, ?_⟩
  have := hsub.length_le
  rwa [List.length_map, pairWithNext_length] at this

/-- Claim C6 witness: the subsequence property on the worked scenario of
spec §8. -/
theorem mapToFrames_subsequence_witness :
    List.Sublist (mapToFrames 30 1200 [⟨0, [⟨0, "a"⟩, ⟨100, "b"⟩]⟩, ⟨1300, [⟨1300, "c"⟩]⟩])
      ((pairWithNext [⟨0, [⟨0, "a"⟩, ⟨100, "b"⟩]⟩, ⟨1300, [⟨1300, "c"⟩]⟩]).map
        fun x => rawInterval 30 1200 x.1 x.2) ∧
    (mapToFrames 30 1200 [⟨0, [⟨0, "a"⟩, ⟨100, "b"⟩]⟩, ⟨1300, [⟨1300, "c"⟩]⟩]).length ≤
      ([⟨0, [⟨0, "a"⟩, ⟨100, "b"⟩]⟩, ⟨1300, [⟨1300, "c"⟩]⟩] : List Page).length :=
  mapToFrames_subsequence 30 1200 [⟨0, [⟨0, "a"⟩, ⟨100, "b"⟩]⟩, ⟨1300, [⟨1300, "c"⟩]⟩]

/-- Claim C2: the millisecond cap `SWITCH_CAPTIONS_EVERY_MS = 1200` is used
directly as a frame count: for every non-empty page sequence the last page
(which has no successor) is emitted as the final interval with
`durationFrames` equal to exactly `SWITCH_CAPTIONS_EVERY_MS` frames — 1200
frames, not the rate-converted `SWITCH_CAPTIONS_EVERY_MS / 1000 * 30`. -/
theorem mapToFrames_last_cap (fps : ℚ) (pages : List Page) (plast : Page)
    (h : pages.getLast? = some plast) :
    (mapToFrames fps SWITCH_CAPTIONS_EVERY_MS pages).getLast? =
      some ⟨plast.startMs / 1000 * fps, SWITCH_CAPTIONS_EVERY_MS⟩ ∧
    SWITCH_CAPTIONS_EVERY_MS ≠ SWITCH_CAPTIONS_EVERY_MS / 1000 * 30 := by
  refine ⟨?_, by norm_num [SWITCH_CAPTIONS_EVERY_MS]⟩
  revert h
  induction pages with
  | nil => intro h; simp at h
  | cons page rest ih =>
    intro h
    cases rest with
    | nil =>
      have hp : plast = page := by simpa using h.symm
      subst hp
      have hpi : pageInterval fps SWITCH_CAPTIONS_EVERY_MS plast ([] : List Page).head? =
          some ⟨plast.startMs / 1000 * fps, SWITCH_CAPTIONS_EVERY_MS⟩ := by
        unfold pageInterval rawInterval
        simp only [List.head?_nil, add_sub_cancel_left]
        rw [if_neg (by norm_num [SWITCH_CAPTIONS_EVERY_MS])]
      rw [mapToFrames, hpi]
      simp [mapToFrames]
    | cons q rest2 =>
      rw [List.getLast?_cons_cons] at h
      have ihh := ih h
      rw [mapToFrames]
      cases hpi : pageInterval fps SWITCH_CAPTIONS_EVERY_MS page (q :: rest2).head? with
      | none => exact ihh
      | some iv =>
        change ([iv] ++ mapToFrames fps SWITCH_CAPTIONS_EVERY_MS (q :: rest2)).getLast? = _
        rw [List.getLast?_append, ihh]
        rfl

/-- Claim C2 witness: a single page starting at 0 ms is emitted with exactly
1200 duration frames. -/
theorem mapToFrames_last_cap_witness :
    (([(⟨0, []⟩ : Page)]).getLast? = some ⟨0, []⟩) ∧
    ((mapToFrames 30 SWITCH_CAPTIONS_EVERY_MS [⟨0, []⟩]).getLast? =
        some ⟨(⟨0, []⟩ : Page).startMs / 1000 * 30, SWITCH_CAPTIONS_EVERY_MS⟩ ∧
      SWITCH_CAPTIONS_EVERY_MS ≠ SWITCH_CAPTIONS_EVERY_MS / 1000 * 30) :=
  ⟨rfl, mapToFrames_last_cap 30 [⟨0, []⟩] ⟨0, []⟩ rfl⟩

/-- Claim C8: when two consecutive pages share the same `startMs`, the
first of the two has computed duration `min(sharedFrame, sharedFrame + cap)
- sharedFrame = 0`, hence is dropped by the `≤ 0` rule and contributes no
interval, and the second is emitted exactly when its own computed duration
is strictly positive. -/
theorem mapToFrames_identical_start (fps maxDurationMs : ℚ) (p q : Page) (rest : List Page)
    (hpq : p.startMs = q.startMs) (hm : 0 ≤ maxDurationMs) :
    min (q.startMs / 1000 * fps) (p.startMs / 1000 * fps + maxDurationMs) -
        p.startMs / 1000 * fps = 0 ∧
    pageInterval fps maxDurationMs p (some q) = none ∧
    mapToFrames fps maxDurationMs (p :: q :: rest) = mapToFrames fps maxDurationMs (q :: rest) ∧
    ((pageInterval fps maxDurationMs q rest.head?).isSome ↔
      0 < (rawInterval fps maxDurationMs q rest.head?).durationFrames) := by
  have hmin : min (q.startMs / 1000 * fps) (p.startMs / 1000 * fps + maxDurationMs) -
      p.startMs / 1000 * fps = 0 := by
    rw [hpq, min_eq_left (le_add_of_nonneg_right hm), sub_self]
  have hnone : pageInterval fps maxDurationMs p (some q) = none := by
    unfold pageInterval
    rw [show (rawInterval fps maxDurationMs p (some q)).durationFrames =
        min (q.startMs / 1000 * fps) (p.startMs / 1000 * fps + maxDurationMs) -
          p.startMs / 1000 * fps from rfl, hmin]
    simp
  have hskip : mapToFrames fps maxDurationMs (p :: q :: rest) =
      mapToFrames fps maxDurationMs (q :: rest) := by
    rw [mapToFrames]
    rw [show (q :: rest).head? = some q from rfl, hnone]
  have hiff : (pageInterval fps maxDurationMs q rest.head?).isSome ↔
      0 < (rawInterval fps maxDurationMs q rest.head?).durationFrames := by
    unfold pageInterval
    split_ifs with hle
    · simp [not_lt.mpr hle]
    · simp [lt_of_not_le hle]
  exact ⟨hmin, hnone, hskip, hiff⟩

/-- Claim C8 witness: two pages both at 0 ms — the first is dropped and the
mapper output equals that of the second page alone. -/
theorem mapToFrames_identical_start_witness :
    ((⟨0, []⟩ : Page).startMs = (⟨0, []⟩ : Page).startMs) ∧ ((0 : ℚ) ≤ 1200) ∧
    (min ((⟨0, []⟩ : Page).startMs / 1000 * 30)
          ((⟨0, []⟩ : Page).startMs / 1000 * 30 + 1200) -
        (⟨0, []⟩ : Page).startMs / 1000 * 30 = 0 ∧
      pageInterval 30 1200 ⟨0, []⟩ (some ⟨0, []⟩) = none ∧
      mapToFrames 30 1200 [⟨0, []⟩, ⟨0, []⟩] = mapToFrames 30 1200 [⟨0, []⟩] ∧
      ((pageInterval 30 1200 (⟨0, []⟩ : Page) ([] : List Page).head?).isSome ↔
        0 < (rawInterval 30 1200 (⟨0, []⟩ : Page) ([] : List Page).head?).durationFrames)) :=
  ⟨rfl, by norm_num, mapToFrames_identical_start 30 1200 ⟨0, []⟩ ⟨0, []⟩ [] rfl (by norm_num)⟩

/-- Claim C7 counterexample: with pages at 0 ms and 10 ms and fps 30, the
mapper emits the interval `⟨0, 3/10⟩`, whose `durationFrames` is neither an
integer nor `≥ 1` — refuting the claim that every emitted `durationFrames`
is an integer `≥ 1`. -/
theorem mapToFrames_duration_not_integral :
    (⟨0, 3 / 10⟩ : FrameInterval) ∈ mapToFrames 30 1200 [⟨0, []⟩, ⟨10, []⟩] ∧
    ¬ (∃ n : ℤ, ((3 : ℚ) / 10) = (n : ℚ)) ∧ ¬ ((1 : ℚ) ≤ 3 / 10) := by
  refine ⟨?_, ?_, by norm_num⟩
  · norm_num [mapToFrames, pageInterval, rawInterval, min_def]
  · rintro ⟨n, hn⟩
    have h3 : ((10 * n : ℤ) : ℚ) = 3 := by push_cast; rw [← hn]; ring
    have h4 : (10 * n : ℤ) = 3 := by exact_mod_cast h3
    omega

/-- Claim C7 (amended): emitted durations are integral and `≥ 1` only under
the additional hypothesis that the cap and every page's computed start frame
(`startMs / 1000 * fps`) are integers; then every emitted interval has an
integral `durationFrames ≥ 1`. -/
theorem mapToFrames_duration_integral (fps maxDurationMs : ℚ) (pages : List Page)
    (hm : ∃ n : ℤ, maxDurationMs = (n : ℚ))
    (hp : ∀ p ∈ pages, ∃ n : ℤ, p.startMs / 1000 * fps = (n : ℚ)) :
    ∀ iv ∈ mapToFrames fps maxDurationMs pages,
      (∃ n : ℤ, iv.durationFrames = (n : ℚ)) ∧ 1 ≤ iv.durationFrames := by
  revert hp
  induction pages with
  | nil => intro hp iv h; simp [mapToFrames] at h
  | cons page rest ih =>
    intro hp iv hiv
    rw [mapToFrames] at hiv
    have hrest : ∀ p ∈ rest, ∃ n : ℤ, p.startMs / 1000 * fps = (n : ℚ) :=
      fun p hp' => hp p (List.mem_cons_of_mem _ hp')
    revert hiv
    cases hpi : pageInterval fps maxDurationMs page rest.head? with
    | none => exact fun hiv => ih hrest iv hiv
    | some iv0 =>
      intro hiv
      rcases List.mem_cons.mp hiv with h1 | h1
      · subst h1
        have hraw := pageInterval_some_eq fps maxDurationMs page rest.head? iv hpi
        have hpos : 0 < iv.durationFrames := by
          unfold pageInterval at hpi
          split at hpi
          · exact absurd hpi (by simp)
          · rename_i hle
            injection hpi with hpi'
            rw [hpi'] at hle
            exact lt_of_not_le hle
        obtain ⟨ns, hs⟩ := hp page (List.mem_cons_self page rest)
        obtain ⟨nm, hmm'⟩ := hm
        have hdur : ∃ n : ℤ, iv.durationFrames = (n : ℚ) := by
          rw [hraw]
          cases hh : rest.head? with
          | none =>
            refine ⟨nm, ?_⟩
            show page.startMs / 1000 * fps + maxDurationMs - page.startMs / 1000 * fps = (nm : ℚ)
            rw [add_sub_cancel_left, hmm']
          | some q =>
            have hq : q ∈ rest := List.mem_of_mem_head? (Option.mem_def.mpr hh)
            obtain ⟨nq, hqs⟩ := hrest q hq
            refine ⟨min nq (ns + nm) - ns, ?_⟩
            show min (q.startMs / 1000 * fps) (page.startMs / 1000 * fps + maxDurationMs) -
                page.startMs / 1000 * fps = ((min nq (ns + nm) - ns : ℤ) : ℚ)
            rw [hqs, hs, hmm']
            push_cast
            rfl
        obtain ⟨k, hk⟩ := hdur
        have hkpos : 0 < k := by
          rw [hk] at hpos
          exact_mod_cast hpos
        have hk1 : 1 ≤ k := by omega
        refine ⟨⟨k, hk⟩, ?_⟩
        rw [hk]
        exact_mod_cast hk1
      · exact ih hrest iv h1

/-- Claim C7 (amended) witness: a single page at 1000 ms with fps 30 has
integral start frame 30, and its emitted interval has the integral duration
1200 ≥ 1. -/
theorem mapToFrames_duration_integral_witness :
    (∃ n : ℤ, (1200 : ℚ) = (n : ℚ)) ∧
    (∀ p ∈ [(⟨1000, []⟩ : Page)], ∃ n : ℤ, p.startMs / 1000 * 30 = (n : ℚ)) ∧
    ∀ iv ∈ mapToFrames 30 1200 [⟨1000, []⟩],
      (∃ n : ℤ, iv.durationFrames = (n : ℚ)) ∧ 1 ≤ iv.durationFrames := by
  have h1 : ∃ n : ℤ, (1200 : ℚ) = (n : ℚ) := ⟨1200, by norm_num⟩
  have h2 : ∀ p ∈ [(⟨1000, []⟩ : Page)], ∃ n : ℤ, p.startMs / 1000 * 30 = (n : ℚ) := by
    intro p hp
    rw [List.mem_singleton] at hp
    subst hp
    exact ⟨30, by norm_num⟩
  exact ⟨h1, h2, mapToFrames_duration_integral 30 1200 [⟨1000, []⟩] h1 h2⟩

end CaptionedVideo
